import Mathlib

/-!
Verification of `isort/finders.py` (module-name → import-section classification).

Python strings are modelled as `List Char` (a Python `str` is a sequence of code
points); `str.lower` is modelled on ASCII letters, which covers every string the
code and configuration of this repository manipulate.  Fallible Python code is
modelled with `Except PyErr`; absent configuration keys are `Option.none`, and a
subscript `config[key]` on an absent key is a `KeyError`.
-/

/-- Python exceptions that the embedded code can raise. -/
inductive PyErr where
  | keyError
  | attributeError
  | unboundLocalError
  | other
deriving DecidableEq, Repr

deriving instance DecidableEq for Except

/-- Abbreviation for the model of a Python `str`: its list of characters. -/
abbrev PyStr := List Char

/-- Characters of a Lean string literal, used to write `PyStr` constants. -/
def pys (s : String) : PyStr := s.data

/-- Model of Python `str.lower` on one character (ASCII letters only). -/
def pyLowerChar (c : Char) : Char :=
  if 'A' ≤ c ∧ c ≤ 'Z' then Char.ofNat (c.toNat + 32) else c

/-- Model of Python `str.lower` (ASCII). -/
def pyLower (s : PyStr) : PyStr := s.map pyLowerChar

/-- Model of Python `a.endswith(b)`. -/
def pyEndsWith (s suffix : PyStr) : Bool := suffix.isSuffixOf s

/-- Model of Python `needle in hay` on strings (substring test). -/
def pyHasSubstr (hay needle : PyStr) : Bool :=
  needle.isPrefixOf hay ||
    match hay with
    | [] => false
    | _ :: t => pyHasSubstr t needle

/-- Model of Python `s.split('.')`. -/
def splitDot : PyStr → List PyStr
  | [] => [[]]
  | c :: s =>
    if c = '.' then [] :: splitDot s
    else
      match splitDot s with
      | [] => [[c]]
      | g :: gs => (c :: g) :: gs

/-- Model of Python `'.'.join(groups)`. -/
def joinDot : List PyStr → PyStr
  | [] => []
  | [g] => g
  | g :: gs => g ++ '.' :: joinDot gs

example : pys "ab" = ['a', 'b'] := by decide
example : splitDot (pys ".x") = [[], ['x']] := by decide
example : pyLower (pys "Flask-RESTFul") = pys "flask-restful" := by decide
example : pyHasSubstr (pys "dev-requirements.txt") (pys "requirements") = true := by decide
example : pyEndsWith (pys "base.txt") (pys ".txt") = true := by decide

/-!
## Pattern languages

`finders.py` matches module names against two pattern languages:

* `fnmatch.fnmatch` (used by `ForcedSeparateFinder.find`, line 64): `*` is any
  run of characters, `?` is exactly one character, every other character is a
  literal (on a POSIX platform `os.path.normcase` is the identity, so matching
  is case-sensitive; character classes `[...]` are not modelled — no pattern of
  this subsystem uses them).
* the regular expressions built by `KnownPatternFinder.__init__` (line 89):
  `'^' + pattern.replace('*', '.*').replace('?', '.?') + '$'`, so `*` becomes
  `.*` (any run), `?` becomes `.?` (zero or one character), `.` stays the regex
  wildcard `.` (one character), and the other characters of a module-name
  pattern (letters, digits, `_`) are literals.  The anchored pattern must match
  the whole candidate string.

Both compile to a common token alphabet `ReTok`, and a single matcher `reMatch`
gives the semantics of a token list.
-/

/-- One token of a compiled pattern: `.*`, `.?`, `.` (or fnmatch `?`), or a
literal character. -/
inductive ReTok where
  | anyStar
  | anyOpt
  | anyOne
  | lit (c : Char)
deriving DecidableEq, Repr

/-- Executable matcher: does the token list match the whole string? -/
def reMatch : List ReTok → PyStr → Bool
  | [], s => s.isEmpty
  | .anyStar :: ts, s => s.tails.any fun suf => reMatch ts suf
  | .anyOpt :: ts, s =>
    reMatch ts s ||
      match s with
      | [] => false
      | _ :: s' => reMatch ts s'
  | .anyOne :: ts, s =>
    match s with
    | [] => false
    | _ :: s' => reMatch ts s'
  | .lit c :: ts, s =>
    match s with
    | [] => false
    | d :: s' => c = d && reMatch ts s'

/-- Declarative semantics of a compiled pattern: `anyStar` consumes any run of
characters (via the skip/consume constructors), `anyOpt` zero or one character,
`anyOne` exactly one character, `lit c` exactly the character `c`. -/
inductive ReMatches : List ReTok → PyStr → Prop where
  | nil : ReMatches [] []
  | lit (c : Char) (ts : List ReTok) (s : PyStr) :
      ReMatches ts s → ReMatches (.lit c :: ts) (c :: s)
  | one (c : Char) (ts : List ReTok) (s : PyStr) :
      ReMatches ts s → ReMatches (.anyOne :: ts) (c :: s)
  | opt0 (ts : List ReTok) (s : PyStr) :
      ReMatches ts s → ReMatches (.anyOpt :: ts) s
  | opt1 (c : Char) (ts : List ReTok) (s : PyStr) :
      ReMatches ts s → ReMatches (.anyOpt :: ts) (c :: s)
  | star0 (ts : List ReTok) (s : PyStr) :
      ReMatches ts s → ReMatches (.anyStar :: ts) s
  | star1 (c : Char) (ts : List ReTok) (s : PyStr) :
      ReMatches (.anyStar :: ts) s → ReMatches (.anyStar :: ts) (c :: s)

theorem ReMatches.star_append {ts : List ReTok} {s2 : PyStr} (s1 : PyStr)
    (h : ReMatches ts s2) : ReMatches (.anyStar :: ts) (s1 ++ s2) := by
  induction s1 with
  | nil => exact .star0 ts s2 h
  | cons c s1 ih => exact .star1 c ts (s1 ++ s2) ih

theorem reMatch_iff_ReMatches (ts : List ReTok) (s : PyStr) :
    reMatch ts s = true ↔ ReMatches ts s := by
  constructor
  · intro h
    induction ts generalizing s with
    | nil =>
      simp only [reMatch, List.isEmpty_iff] at h
      subst h; exact .nil
    | cons t ts ih =>
      cases t with
      | anyStar =>
        simp only [reMatch, List.any_eq_true] at h
        obtain ⟨suf, hsuf, hm⟩ := h
        obtain ⟨s1, rfl⟩ := (List.mem_tails suf s).1 hsuf
        exact ReMatches.star_append s1 (ih suf hm)
      | anyOpt =>
        simp only [reMatch, Bool.or_eq_true] at h
        rcases h with h | h
        · exact .opt0 ts s (ih s h)
        · cases s with
          | nil => simp at h
          | cons c s' => exact .opt1 c ts s' (ih s' h)
      | anyOne =>
        cases s with
        | nil => simp [reMatch] at h
        | cons c s' => exact .one c ts s' (ih s' h)
      | lit c =>
        cases s with
        | nil => simp [reMatch] at h
        | cons d s' =>
          simp only [reMatch, Bool.and_eq_true, decide_eq_true_eq] at h
          obtain ⟨rfl, hm⟩ := h
          exact .lit c ts s' (ih s' hm)
  · intro h
    induction h with
    | nil => rfl
    | lit c ts s _ ih => simp [reMatch, ih]
    | one c ts s _ ih => simp [reMatch, ih]
    | opt0 ts s _ ih => cases s <;> simp [reMatch, ih]
    | opt1 c ts s _ ih => simp [reMatch, ih]
    | star0 ts s _ ih =>
      simp only [reMatch, List.any_eq_true]
      exact ⟨s, (List.mem_tails s s).2 List.suffix_rfl, ih⟩
    | star1 c ts s _ ih =>
      simp only [reMatch, List.any_eq_true] at ih ⊢
      obtain ⟨suf, hsuf, hm⟩ := ih
      exact ⟨suf, (List.mem_tails suf (c :: s)).2
        (((List.mem_tails suf s).1 hsuf).trans (List.suffix_cons c s)), hm⟩

/-- The star token matches exactly the splits of the string. -/
theorem ReMatches_star_iff (ts : List ReTok) (s : PyStr) :
    ReMatches (.anyStar :: ts) s ↔ ∃ s1 s2, s = s1 ++ s2 ∧ ReMatches ts s2 := by
  constructor
  · intro h
    have hb := (reMatch_iff_ReMatches (.anyStar :: ts) s).2 h
    simp only [reMatch, List.any_eq_true] at hb
    obtain ⟨suf, hsuf, hm⟩ := hb
    obtain ⟨s1, rfl⟩ := (List.mem_tails suf s).1 hsuf
    exact ⟨s1, suf, rfl, (reMatch_iff_ReMatches ts suf).1 hm⟩
  · rintro ⟨s1, s2, rfl, h⟩
    exact ReMatches.star_append s1 h

/-- The `.?` token matches zero or one (arbitrary) character. -/
theorem ReMatches_opt_iff (ts : List ReTok) (s : PyStr) :
    ReMatches (.anyOpt :: ts) s ↔
      ReMatches ts s ∨ ∃ c s', s = c :: s' ∧ ReMatches ts s' := by
  rw [← reMatch_iff_ReMatches, ← reMatch_iff_ReMatches]
  cases s with
  | nil => simp [reMatch]
  | cons c s' =>
    simp only [reMatch, Bool.or_eq_true]
    constructor
    · rintro (h | h)
      · exact .inl h
      · exact .inr ⟨c, s', rfl, (reMatch_iff_ReMatches ts s').1 h⟩
    · rintro (h | ⟨c', s'', heq, h⟩)
      · exact .inl h
      · cases heq
        exact .inr ((reMatch_iff_ReMatches ts _).2 h)

/-- The one-character tokens match exactly one character; a literal matches
itself, case-sensitively. -/
theorem ReMatches_one_lit_iff (ts : List ReTok) (s : PyStr) (c : Char) :
    (ReMatches (.anyOne :: ts) s ↔ ∃ d s', s = d :: s' ∧ ReMatches ts s') ∧
    (ReMatches (.lit c :: ts) s ↔ ∃ s', s = c :: s' ∧ ReMatches ts s') := by
  constructor
  · rw [← reMatch_iff_ReMatches]
    cases s with
    | nil => simp [reMatch]
    | cons d s' =>
      simp only [reMatch]
      constructor
      · intro h; exact ⟨d, s', rfl, (reMatch_iff_ReMatches ts s').1 h⟩
      · rintro ⟨d', s'', heq, h⟩
        cases heq
        exact (reMatch_iff_ReMatches ts _).2 h
  · rw [← reMatch_iff_ReMatches]
    cases s with
    | nil => simp [reMatch]
    | cons d s' =>
      simp only [reMatch, Bool.and_eq_true, decide_eq_true_eq]
      constructor
      · rintro ⟨rfl, h⟩; exact ⟨s', rfl, (reMatch_iff_ReMatches ts s').1 h⟩
      · rintro ⟨s'', heq, h⟩
        cases heq
        exact ⟨rfl, (reMatch_iff_ReMatches ts _).2 h⟩

/-!
## Configuration, sections and the finder data model
-/

/-- The configuration keys of `finders.py` that the verified claims depend on.
Each key of the Python mapping is optional; `config[key]` on an absent key is a
`KeyError`, `config.get(key, d)` falls back to `d`. -/
structure Config where
  forced_separate : Option (List PyStr)
  default_section : Option PyStr
  verbose : Bool
deriving Repr

/-- A configuration with no keys set (`{}` on the Python side). -/
def Config.empty : Config := Config.mk none none false

/-- The section registry attributes that the embedded finders read
(`sections.LOCALFOLDER`, `sections.THIRDPARTY`, `sections.STDLIB`). -/
structure Sections where
  LOCALFOLDER : PyStr
  THIRDPARTY : PyStr
  STDLIB : PyStr
deriving Repr

/-- A concrete section registry with the standard names. -/
def Sections.standard : Sections :=
  Sections.mk (pys "LOCALFOLDER") (pys "THIRDPARTY") (pys "STDLIB")

/-- The result of one Python finder lookup: an exception, or an optional
section (`None` = no answer). -/
abbrev FindResult := Except PyErr (Option PyStr)

/-- A finder as consumed by `FindersManager.find`: its `find` method. -/
abbrev FinderFn := PyStr → FindResult

/-!
## ForcedSeparateFinder (finders.py lines 56-65)

```python
def find(self, module_name):
    for forced_separate in self.config['forced_separate']:
        path_glob = forced_separate
        if not forced_separate.endswith('*'):
            path_glob = '%s*' % forced_separate
        if fnmatch(module_name, path_glob) or fnmatch(module_name, '.' + path_glob):
            return forced_separate
```
-/

/-- Compilation of an `fnmatch` glob: `*` → any run, `?` → exactly one
character, everything else literal (POSIX case-sensitive semantics; character
classes unused by this code are not modelled). -/
def compileGlob (p : PyStr) : List ReTok :=
  p.map fun c => if c = '*' then .anyStar else if c = '?' then .anyOne else .lit c

/-- Model of `fnmatch.fnmatch(name, pat)` on POSIX. -/
def fnmatch (name pat : PyStr) : Bool := reMatch (compileGlob pat) name

/-- The per-pattern test of the `ForcedSeparateFinder.find` loop body (lines
58-64): append `*` unless the pattern already ends in `*`, then test the module
name against the glob and against `'.' + glob`. -/
def ForcedSeparateFinder.matchCond (module_name forced_separate : PyStr) : Bool :=
  let path_glob := if pyEndsWith forced_separate (pys "*")
    then forced_separate else forced_separate ++ pys "*"
  fnmatch module_name path_glob || fnmatch module_name ('.' :: path_glob)

/-- The loop of `ForcedSeparateFinder.find` over the configured pattern list:
return the original pattern (without the appended wildcard) on the first
successful test. -/
def ForcedSeparateFinder.scan (pats : List PyStr) (module_name : PyStr) : Option PyStr :=
  match pats with
  | [] => none
  | forced_separate :: rest =>
    if ForcedSeparateFinder.matchCond module_name forced_separate
    then some forced_separate
    else ForcedSeparateFinder.scan rest module_name

/-- Model of `ForcedSeparateFinder.find`: reading `self.config['forced_separate']` raises
`KeyError` when the key is absent, otherwise the list is scanned. -/
def ForcedSeparateFinder.find (config : Config) (module_name : PyStr) : FindResult :=
  match config.forced_separate with
  | none => .error .keyError
  | some pats => .ok (ForcedSeparateFinder.scan pats module_name)

/-!
## LocalFinder (finders.py lines 68-71)
-/

/-- Model of `LocalFinder.find`: the local-folder section for names starting with a dot,
no answer otherwise; never raises. -/
def LocalFinder.find (sections : Sections) (module_name : PyStr) : FindResult :=
  .ok (match module_name with
    | '.' :: _ => some sections.LOCALFOLDER
    | _ => none)

/-!
## DefaultFinder (finders.py lines 315-317)
-/

/-- Model of `DefaultFinder.find`: `return self.config['default_section']` — the
configured value, or a `KeyError` when the key is absent. -/
def DefaultFinder.find (config : Config) (_module_name : PyStr) : FindResult :=
  match config.default_section with
  | none => .error .keyError
  | some s => .ok (some s)

/-!
## FindersManager.find (finders.py lines 346-357)

```python
def find(self, module_name):
    for finder in self.finders:
        try:
            section = finder.find(module_name)
        except Exception as exception:
            if self.verbose:
                print(...)
        if section is not None:
            return section
```

The local variable `section` is assigned only inside the `try` block.  The
model carries its state explicitly: `none` while it is still unbound (reading
it then raises `UnboundLocalError`), `some v` once it holds the value `v`.
-/

/-- The loop of `FindersManager.find`, with the state of the local variable
`section` as an explicit argument. -/
def FindersManager.findLoop (module_name : PyStr) :
    List FinderFn → Option (Option PyStr) → FindResult
  | [], _ => .ok none
  | finder :: rest, sectionVar =>
    let sectionVar' :=
      match finder module_name with
      | .ok v => some v
      | .error _ => sectionVar
    match sectionVar' with
    | none => .error .unboundLocalError
    | some (some v) => .ok (some v)
    | some none => FindersManager.findLoop module_name rest (some none)

/-- Model of `FindersManager.find` over the manager's finder list; falling off the end
of the Python function returns `None`. -/
def FindersManager.find (finders : List FinderFn) (module_name : PyStr) : FindResult :=
  FindersManager.findLoop module_name finders none

/-!
## FindersManager.__init__ (finders.py lines 320-344)

```python
class FindersManager(object):
    _default_finders_classes = (
        ForcedSeparateFinder, LocalFinder, KnownPatternFinder, PathFinder,
        PipfileFinder, RequirementsFinder, DefaultFinder)

    def __init__(self, config, sections, finders=None):
        self.verbose = config.get('verbose', False)
        finders = self.finders if finders is None else finders
        self.finders = []
        for finder in finders:
            try:
                self.finders.append(finder(config, sections))
            except Exception as exception:
                if self.verbose: print(...)
        self.finders = tuple(self.finders)
```
-/

/-- A finder constructor as consumed by the `__init__` loop: applied to the
configuration and section registry, it raises or yields the new finder's
`find` method. -/
abbrev FinderCtor := Config → Sections → Except PyErr FinderFn

/-- The construction loop of `FindersManager.__init__` (lines 335-344) for an
explicit iterable of constructors: each constructor that raises is skipped,
each one that succeeds is appended. -/
def FindersManager.initFinders (finders : List FinderCtor) (config : Config)
    (sections : Sections) : List FinderFn :=
  finders.foldl
    (fun acc finder =>
      match finder config sections with
      | .ok f => acc ++ [f]
      | .error _ => acc)
    []

/-- The value of the class attribute `_default_finders_classes` (lines
321-329): the names of the seven default finder classes, in source order. -/
def FindersManager.defaultFindersClasses : List PyStr :=
  [pys "ForcedSeparateFinder", pys "LocalFinder", pys "KnownPatternFinder",
   pys "PathFinder", pys "PipfileFinder", pys "RequirementsFinder",
   pys "DefaultFinder"]

/-- The attribute names bound by the class body of `FindersManager`: the tuple
`_default_finders_classes` and the methods `__init__` and `find`. -/
def FindersManager.classAttrNames : List PyStr :=
  [pys "_default_finders_classes", pys "__init__", pys "find"]

/-- The instance attributes assigned before line 334 of `__init__` is reached:
only `self.verbose` (line 332). -/
def FindersManager.instanceAttrNamesAtLine334 : List PyStr := [pys "verbose"]

/-- Model of `__init__` with the `finders` argument: for an explicit iterable
the loop runs; for `finders=None`, line 334 reads `self.finders`, which Python
resolves against the instance attributes assigned so far and then the class
attributes, raising `AttributeError` when the name is bound in neither. -/
def FindersManager.init (config : Config) (sections : Sections)
    (finders : Option (List FinderCtor)) : Except PyErr (List FinderFn) :=
  match finders with
  | some fs => .ok (FindersManager.initFinders fs config sections)
  | none =>
    if (FindersManager.instanceAttrNamesAtLine334 ++
        FindersManager.classAttrNames).contains (pys "finders")
    then .ok []  -- unreachable: the name "finders" is bound in neither namespace
    else .error .attributeError

theorem FindersManager.initFinders_eq_filterMap (finders : List FinderCtor)
    (config : Config) (sections : Sections) :
    FindersManager.initFinders finders config sections
      = finders.filterMap fun f => (f config sections).toOption := by
  have key : ∀ (l : List FinderCtor) (acc : List FinderFn),
      l.foldl
        (fun acc finder =>
          match finder config sections with
          | .ok f => acc ++ [f]
          | .error _ => acc)
        acc
        = acc ++ l.filterMap fun f => (f config sections).toOption := by
    intro l
    induction l with
    | nil => intro acc; simp
    | cons hd tl ih =>
      intro acc
      simp only [List.foldl_cons, List.filterMap_cons]
      cases h : hd config sections with
      | ok f => simp [h, ih, Except.toOption]
      | error e => simp [h, ih, Except.toOption]
  simpa using key finders []

/-!
## Claims about the manager (C1, C2, C7, C9)
-/

/-- A configuration with `default_section` set and `forced_separate` absent. -/
def cfgNoForced : Config := Config.mk none (some (pys "THIRDPARTY")) false

/-- C1.  The claim says `FindersManager.find` never raises and that an
exception in any finder's lookup — including the first finder's — is caught
and iteration continues.  In the code the local variable `section` is assigned
only inside the `try` block, so when the very first finder's lookup raises, the
subsequent `if section is not None` reads an unbound local and `find` itself
raises `UnboundLocalError`: with `forced_separate` absent from the
configuration, `ForcedSeparateFinder.find` raises `KeyError`, and a manager
whose finder list starts with it propagates `UnboundLocalError` instead of
continuing to `DefaultFinder` (which had the answer `THIRDPARTY`).  Exhausting
the list without an answer does return no answer, and an exception in a
non-first finder is isolated. -/
theorem findersManager_find_first_finder_exception_is_fatal :
    (∀ m : PyStr, FindersManager.find [] m = .ok none) ∧
    ForcedSeparateFinder.find cfgNoForced (pys "os") = .error .keyError ∧
    DefaultFinder.find cfgNoForced (pys "os") = .ok (some (pys "THIRDPARTY")) ∧
    FindersManager.find
      [ForcedSeparateFinder.find cfgNoForced, DefaultFinder.find cfgNoForced]
      (pys "os") = .error .unboundLocalError ∧
    FindersManager.find
      [LocalFinder.find Sections.standard,
       ForcedSeparateFinder.find cfgNoForced, DefaultFinder.find cfgNoForced]
      (pys "os") = .ok (some (pys "THIRDPARTY")) := by
  refine ⟨fun m => rfl, rfl, rfl, rfl, rfl⟩

/-- C2.  The claim says constructing a `FindersManager` without an explicit
`finders` argument succeeds and instantiates the default finder constructors in
order.  The tuple `_default_finders_classes` does hold exactly those seven
classes in the claimed order, but line 334 reads `self.finders`, an attribute
that no longer exists after the tuple was renamed `_default_finders_classes`,
so construction raises `AttributeError` instead. -/
theorem findersManager_default_construction_raises :
    FindersManager.defaultFindersClasses
      = [pys "ForcedSeparateFinder", pys "LocalFinder", pys "KnownPatternFinder",
         pys "PathFinder", pys "PipfileFinder", pys "RequirementsFinder",
         pys "DefaultFinder"] ∧
    (FindersManager.instanceAttrNamesAtLine334 ++
        FindersManager.classAttrNames).contains (pys "finders") = false ∧
    (∀ (config : Config) (sections : Sections),
      FindersManager.init config sections none = .error .attributeError) := by
  refine ⟨rfl, by decide, fun config sections => rfl⟩

/-- C7.  Construction with an explicit list of finder constructors: the
manager's finder list is the ordered subsequence of the constructors that
succeeded (every constructor after a failing one still runs, and the finders
built from the unaffected constructors are exactly the same functions, so their
`find` results are unchanged). -/
theorem findersManager_init_isolates_constructor_failures :
    (∀ (ctors : List FinderCtor) (config : Config) (sections : Sections),
      FindersManager.initFinders ctors config sections
        = ctors.filterMap fun f => (f config sections).toOption) ∧
    (∀ (pre post : List FinderCtor) (config : Config) (sections : Sections)
        (e : PyErr),
      FindersManager.initFinders (pre ++ (fun _ _ => Except.error e) :: post)
          config sections
        = FindersManager.initFinders (pre ++ post) config sections) := by
  refine ⟨FindersManager.initFinders_eq_filterMap, ?_⟩
  intro pre post config sections e
  simp [FindersManager.initFinders_eq_filterMap, Except.toOption]

/-- C9.  `DefaultFinder.find` returns the configured `default_section`
whenever the key is present, for every module name.  When the key is absent it
raises `KeyError`; the claim says the manager isolates this into "no answer"
rather than a fatal error, which holds when an earlier finder's lookup
completed (last conjunct) but not when `DefaultFinder` is the first finder
consulted: there the manager's `find` raises `UnboundLocalError`. -/
theorem defaultFinder_missing_key_is_fatal_when_first :
    (∀ (fs : Option (List PyStr)) (ds : PyStr) (v : Bool) (m : PyStr),
      DefaultFinder.find (Config.mk fs (some ds) v) m = .ok (some ds)) ∧
    (∀ m : PyStr, DefaultFinder.find Config.empty m = .error .keyError) ∧
    FindersManager.find [DefaultFinder.find Config.empty] (pys "os")
      = .error .unboundLocalError ∧
    FindersManager.find
      [LocalFinder.find Sections.standard, DefaultFinder.find Config.empty]
      (pys "os") = .ok none := by
  refine ⟨fun fs ds v m => rfl, fun m => rfl, rfl, rfl⟩

/-!
## KnownPatternFinder (finders.py lines 74-114)
-/

/-- Compilation of one known-pattern literal (line 89):
`'^' + p.replace('*', '.*').replace('?', '.?') + '$'`, read as the anchored
regular expression it produces when the remaining characters of the literal are
not regex metacharacters (module-name patterns are made of letters, digits,
`_`, `.`, `*`, `?`): `*` → any run, `?` → zero or one character, `.` → the
regex wildcard (one character), anything else a literal. -/
def KnownPatternFinder.compilePattern (p : PyStr) : List ReTok :=
  p.map fun c =>
    if c = '*' then .anyStar
    else if c = '?' then .anyOpt
    else if c = '.' then .anyOne
    else .lit c

/-- The `known_patterns` list built at construction from pattern literals
paired with their placements, in registration order (the append loop of lines
88-90). -/
def KnownPatternFinder.mkKnownPatterns (l : List (PyStr × PyStr)) :
    List (List ReTok × PyStr) :=
  l.map fun pp => (KnownPatternFinder.compilePattern pp.1, pp.2)

/-- Model of `KnownPatternFinder.find` (lines 107-114): split the module name on dots,
check `'.'.join(parts[:first_k])` for `first_k` from `len(parts)` down to `1`,
and inside each candidate scan the stored pattern list in order, returning the
first matching pattern's placement. -/
def KnownPatternFinder.find (known_patterns : List (List ReTok × PyStr))
    (module_name : PyStr) : Option PyStr :=
  let parts := splitDot module_name
  let module_names_to_check :=
    (List.range parts.length).map fun i => joinDot (parts.take (parts.length - i))
  module_names_to_check.findSome? fun cand =>
    known_patterns.findSome? fun pp =>
      if reMatch pp.1 cand then some pp.2 else none

/-- The dotted-ancestor enumeration as the claim words it: the full component
list, then dropping the last component repeatedly, down to the first component
alone. -/
def dottedAncestorChain : List PyStr → List (List PyStr)
  | [] => []
  | p :: rest => (p :: rest) :: dottedAncestorChain (p :: rest).dropLast
termination_by parts => parts.length
decreasing_by simp [List.length_dropLast]

theorem range_take_eq_dottedAncestorChain (parts : List PyStr) :
    (List.range parts.length).map (fun i => parts.take (parts.length - i))
      = dottedAncestorChain parts := by
  induction parts using dottedAncestorChain.induct with
  | case1 => simp [dottedAncestorChain]
  | case2 p rest ih =>
      rw [dottedAncestorChain]
      have hlen : (p :: rest).dropLast.length = rest.length := by
        simp [List.length_dropLast]
      rw [hlen] at ih
      simp only [List.length_cons]
      rw [List.range_succ_eq_map]
      simp only [List.map_cons, List.map_map]
      rw [← ih]
      congr 1
      · simp
      apply List.map_congr_left
      intro i hi
      simp only [List.mem_range] at hi
      simp only [Function.comp]
      have h1 : rest.length + 1 - (i + 1) = rest.length - i := by omega
      rw [h1, List.dropLast_eq_take]
      rw [List.take_take]
      congr 1
      simp only [List.length_cons]
      omega

theorem forcedSeparateFinder_scan_eq_find? (pats : List PyStr) (m : PyStr) :
    ForcedSeparateFinder.scan pats m
      = pats.find? fun p => ForcedSeparateFinder.matchCond m p := by
  induction pats with
  | nil => rfl
  | cons p ps ih =>
    rw [ForcedSeparateFinder.scan, List.find?_cons]
    cases h : ForcedSeparateFinder.matchCond m p <;> simp [h, ih]

/-- C3 counterexample.  With the configured list `['x']` the wildcarded glob is
`'x*'`; the module name `'.x'` does not match it, and the dot-prefixed module
name `'..x'` does not match it either, so under the claim's matching condition
no pattern matches — yet `ForcedSeparateFinder.find` returns `'x'`, because the
code actually tests the module name against the *pattern* prefixed with a dot
(`fnmatch(module_name, '.' + path_glob)`). -/
theorem forcedSeparateFinder_claim_dot_clause_false :
    ForcedSeparateFinder.find (Config.mk (some [pys "x"]) none false) (pys ".x")
      = .ok (some (pys "x")) ∧
    fnmatch (pys ".x") (pys "x*") = false ∧
    fnmatch ('.' :: pys ".x") (pys "x*") = false := by
  refine ⟨by decide, by decide, by decide⟩

/-- C3 amended.  `ForcedSeparateFinder.find` with the key present returns the
first configured pattern (the original literal, without the appended wildcard)
such that the module name matches the wildcarded glob, or the module name
matches the wildcarded glob prefixed with a leading dot; globs are matched
case-sensitively, `*` being any run and `?` exactly one character (the
declarative semantics `ReMatches` of the compiled glob); no matching pattern
means no answer, and an absent `forced_separate` key raises `KeyError`. -/
theorem forcedSeparateFinder_find_characterization :
    (∀ (pats : List PyStr) (ds : Option PyStr) (v : Bool) (m : PyStr),
      ForcedSeparateFinder.find (Config.mk (some pats) ds v) m
        = .ok (pats.find? fun p => ForcedSeparateFinder.matchCond m p)) ∧
    (∀ m p : PyStr,
      ForcedSeparateFinder.matchCond m p
        = (fnmatch m (if pyEndsWith p (pys "*") then p else p ++ pys "*") ||
           fnmatch m ('.' :: (if pyEndsWith p (pys "*") then p else p ++ pys "*")))) ∧
    (∀ name pat : PyStr, fnmatch name pat = true ↔ ReMatches (compileGlob pat) name) ∧
    (∀ (ds : Option PyStr) (v : Bool) (m : PyStr),
      ForcedSeparateFinder.find (Config.mk none ds v) m = .error .keyError) := by
  refine ⟨?_, fun m p => rfl, ?_, fun ds v m => rfl⟩
  · intro pats ds v m
    show Except.ok (ForcedSeparateFinder.scan pats m) = _
    rw [forcedSeparateFinder_scan_eq_find?]
  · intro name pat
    exact reMatch_iff_ReMatches (compileGlob pat) name

/-- C4.  `KnownPatternFinder.find` checks exactly the dotted ancestors of the
module name, from the full name down to the first component (the spec-side
enumeration `dottedAncestorChain`), and inside each candidate scans the stored
pattern list in registration order, returning the first match's placement — so
the longest matching dotted ancestor wins, with registration order breaking
ties on the same ancestor; no match at any ancestor is no answer.  The three
closed conjuncts instantiate the claim's example and longest-ancestor-wins. -/
theorem knownPatternFinder_find_most_specific_ancestor_first :
    (∀ (kps : List (List ReTok × PyStr)) (m : PyStr),
      KnownPatternFinder.find kps m
        = ((dottedAncestorChain (splitDot m)).map joinDot).findSome? fun cand =>
            kps.findSome? fun pp => if reMatch pp.1 cand then some pp.2 else none) ∧
    KnownPatternFinder.find
      (KnownPatternFinder.mkKnownPatterns [(pys "foo.bar", pys "THIRDPARTY")])
      (pys "foo.bar.baz") = some (pys "THIRDPARTY") ∧
    KnownPatternFinder.find
      (KnownPatternFinder.mkKnownPatterns [(pys "foo.bar", pys "THIRDPARTY")])
      (pys "foo.qux") = none ∧
    KnownPatternFinder.find
      (KnownPatternFinder.mkKnownPatterns
        [(pys "foo", pys "FIRSTPARTY"), (pys "foo.bar", pys "THIRDPARTY")])
      (pys "foo.bar.baz") = some (pys "THIRDPARTY") := by
  refine ⟨?_, by decide, by decide, by decide⟩
  intro kps m
  unfold KnownPatternFinder.find
  rw [← range_take_eq_dottedAncestorChain]
  simp only [List.map_map, Function.comp_def]

/-- Modelled from the claim's words: a compilation in which `?` must match
exactly one (any single) character; everything else as the code compiles. -/
def claimCompileExactlyOne (p : PyStr) : List ReTok :=
  p.map fun c =>
    if c = '*' then .anyStar
    else if c = '?' then .anyOne
    else if c = '.' then .anyOne
    else .lit c

/-- C5 counterexample.  The code turns `?` into the regex `.?`, which also
matches the empty string: pattern `'a?'` compiles to `^a.?$` and matches the
one-character candidate `'a'`, while the claim's exactly-one reading rejects
it; a `KnownPatternFinder` holding `'a?'` therefore classifies module `'a'`. -/
theorem knownPatternFinder_question_mark_matches_empty :
    reMatch (KnownPatternFinder.compilePattern (pys "a?")) (pys "a") = true ∧
    reMatch (claimCompileExactlyOne (pys "a?")) (pys "a") = false ∧
    KnownPatternFinder.find
      (KnownPatternFinder.mkKnownPatterns [(pys "a?", pys "THIRDPARTY")])
      (pys "a") = some (pys "THIRDPARTY") := by
  refine ⟨by decide, by decide, by decide⟩

/-- C5 amended.  Every known-pattern literal compiles to an anchored pattern
that must match the full candidate string, in which `*` matches any run of
characters and `?` matches zero or one (rather than exactly one) character:
the executable matcher of the compiled pattern agrees with the declarative
semantics `ReMatches`, whose star and option tokens are characterized by the
second and third conjuncts; the last conjunct shows a concrete compilation. -/
theorem knownPatternFinder_compiled_pattern_semantics :
    (∀ p s : PyStr,
      reMatch (KnownPatternFinder.compilePattern p) s = true
        ↔ ReMatches (KnownPatternFinder.compilePattern p) s) ∧
    (∀ (ts : List ReTok) (s : PyStr),
      ReMatches (.anyStar :: ts) s ↔ ∃ s1 s2, s = s1 ++ s2 ∧ ReMatches ts s2) ∧
    (∀ (ts : List ReTok) (s : PyStr),
      ReMatches (.anyOpt :: ts) s
        ↔ ReMatches ts s ∨ ∃ c s', s = c :: s' ∧ ReMatches ts s') ∧
    KnownPatternFinder.compilePattern (pys "fo?.*")
      = [.lit 'f', .lit 'o', .anyOpt, .anyOne, .anyStar] := by
  exact ⟨fun p s => reMatch_iff_ReMatches _ _, ReMatches_star_iff,
    ReMatches_opt_iff, by decide⟩

/-!
## ReqsBaseFinder (finders.py lines 171-261)

The manifest-based finders load a list of declared package names (the raw
output of the subclass `_get_names` over all discovered manifest files) and
normalize each one; `find` then compares the lowercased first dotted component
of the module name against the loaded names.
-/

/-- Model of `ReqsBaseFinder._normalize_name` (lines 237-247): when the
package-name→module-name mapping is truthy (present and non-empty), look the
raw name up, passing it through if the key is absent; then lowercase and
replace hyphens with underscores. -/
def ReqsBaseFinder.normalizeName (mapping : Option (List (PyStr × PyStr)))
    (name : PyStr) : PyStr :=
  let name :=
    match mapping with
    | none => name
    | some mp =>
      if mp.isEmpty then name
      else
        match mp.find? fun kv => kv.1 == name with
        | some kv => kv.2
        | none => name
  (pyLower name).map fun c => if c = '-' then '_' else c

/-- Model of `ReqsBaseFinder._load_names` (lines 209-216) applied to the raw names the
subclass extractor produced over all discovered files: every extracted name,
normalized, in order. -/
def ReqsBaseFinder.loadNames (mapping : Option (List (PyStr × PyStr)))
    (extracted : List PyStr) : List PyStr :=
  extracted.map fun name => ReqsBaseFinder.normalizeName mapping name

/-- Model of `ReqsBaseFinder.find` (lines 249-261): no answer when disabled; otherwise
take the part of the module name before the first dot, lowercase it, answer
nothing when it is empty, and classify third-party exactly when the loaded
name list contains it. -/
def ReqsBaseFinder.find (enabled : Bool) (names : List PyStr)
    (sections : Sections) (module_name : PyStr) : Option PyStr :=
  if !enabled then none
  else
    let module_name := pyLower (module_name.takeWhile fun c => c ≠ '.')
    if module_name.isEmpty then none
    else if names.contains module_name then some sections.THIRDPARTY
    else none

/-- C8.  For an enabled manifest-based finder, `find` answers the third-party
section exactly when the lowercased first dotted component of the module name
is non-empty and occurs among the loaded names, each of which is the
normalization (mapping lookup with pass-through, lowercase, hyphens to
underscores) of an extracted requirement name; a disabled finder always
answers nothing.  The closed conjuncts instantiate the claim's normalization
examples, plus a mapping-hit example from the `_load_mapping` docstring. -/
theorem reqsBaseFinder_find_normalized_first_component :
    (∀ (mapping : Option (List (PyStr × PyStr))) (extracted : List PyStr)
        (sections : Sections) (m : PyStr),
      (ReqsBaseFinder.find true (ReqsBaseFinder.loadNames mapping extracted)
          sections m = some sections.THIRDPARTY
        ↔ (pyLower (m.takeWhile fun c => c ≠ '.') ≠ [] ∧
           pyLower (m.takeWhile fun c => c ≠ '.')
             ∈ extracted.map fun name => ReqsBaseFinder.normalizeName mapping name))) ∧
    (∀ (names : List PyStr) (sections : Sections) (m : PyStr),
      ReqsBaseFinder.find false names sections m = none) ∧
    ReqsBaseFinder.normalizeName none (pys "Django") = pys "django" ∧
    ReqsBaseFinder.normalizeName none (pys "django-haystack")
      = pys "django_haystack" ∧
    ReqsBaseFinder.normalizeName none (pys "Flask-RESTFul")
      = pys "flask_restful" ∧
    ReqsBaseFinder.normalizeName (some [(pys "django-haystack", pys "haystack")])
      (pys "django-haystack") = pys "haystack" := by
  refine ⟨?_, fun names sections m => rfl, by decide, by decide, by decide, by decide⟩
  intro mapping extracted sections m
  unfold ReqsBaseFinder.find
  set k := pyLower (m.takeWhile fun c => c ≠ '.') with hk
  by_cases hemp : k = []
  · simp [hemp]
  · have hne : k.isEmpty = false := by simpa [List.isEmpty_iff] using hemp
    by_cases hmem : k ∈ ReqsBaseFinder.loadNames mapping extracted
    · have hc : (ReqsBaseFinder.loadNames mapping extracted).contains k = true := by
        simpa using hmem
      simp only [ReqsBaseFinder.loadNames] at hmem
      simp [hne, hc, hemp, hmem, ReqsBaseFinder.loadNames]
    · have hc : (ReqsBaseFinder.loadNames mapping extracted).contains k = false := by
        simpa using hmem
      simp only [ReqsBaseFinder.loadNames] at hmem
      simp [hne, hc, hemp, hmem, ReqsBaseFinder.loadNames]

/-!
## RequirementsFinder._get_files_from_dir (finders.py lines 264-289)

```python
exts = ('.txt', '.in')

def _get_files_from_dir(self, path):
    for fname in os.listdir(path):
        if 'requirements' not in fname:
            continue
        full_path = os.path.join(path, fname)

        # *requirements*/*.{txt,in}
        if os.path.isdir(full_path):
            for subfile_name in os.listdir(path):
                for ext in self.exts:
                    if subfile_name.endswith(ext):
                        yield os.path.join(path, subfile_name)
            continue

        # *requirements*.{txt,in}
        if os.path.isfile(full_path):
            for ext in self.exts:
                if fname.endswith(ext):
                    yield full_path
                    break
```
-/

/-- What one directory entry is on the model filesystem: a regular file, a
directory carrying the entry names one level inside it, or neither. -/
inductive FsEntry where
  | file
  | dir (subnames : List PyStr)
  | other
deriving DecidableEq, Repr

/-- A directory listing: the `os.listdir` result in order, each name paired
with what `os.path.isdir` / `os.path.isfile` report for it. -/
structure DirListing where
  entries : List (PyStr × FsEntry)
deriving DecidableEq, Repr

/-- Model of `os.path.join(a, b)` for a relative second component. -/
def pathJoin (a b : PyStr) : PyStr := a ++ '/' :: b

/-- Value of `RequirementsFinder.exts` (line 265). -/
def RequirementsFinder.exts : List PyStr := [pys ".txt", pys ".in"]

/-- Python `any(name.endswith(ext) for ext in exts)` — the two extensions are
mutually exclusive, so the `yield`-and-`break` loop yields at most once. -/
def endsWithReqExt (name : PyStr) : Bool :=
  RequirementsFinder.exts.any fun ext => pyEndsWith name ext

/-- Model of `RequirementsFinder._get_files_from_dir`, translated faithfully: for each
listed entry whose name contains `"requirements"`, when the entry is a
directory the inner loop iterates `os.listdir(path)` — the listing of the
*passed* directory again, not of the entry — and yields
`os.path.join(path, subfile_name)` for every listed name with a requirements
extension; when the entry is a regular file it is yielded if its own name has
a requirements extension; anything else contributes nothing. -/
def RequirementsFinder.getFilesFromDir (path : PyStr) (listing : DirListing) :
    List PyStr :=
  listing.entries.flatMap fun e =>
    if !pyHasSubstr e.1 (pys "requirements") then []
    else
      match e.2 with
      | .dir _ =>
        listing.entries.filterMap fun sub =>
          if endsWithReqExt sub.1 then some (pathJoin path sub.1) else none
      | .file => if endsWithReqExt e.1 then [pathJoin path e.1] else []
      | .other => []

/-- Modelled from the spec (and from the code's own comment
`# *requirements*/*.{txt,in}`): for each entry whose name contains
`"requirements"`, a directory entry contributes the names one level inside
*that directory* having a requirements extension, and a file entry with a
requirements extension contributes itself. -/
def claimGetFilesFromDir (path : PyStr) (listing : DirListing) : List PyStr :=
  listing.entries.flatMap fun e =>
    if !pyHasSubstr e.1 (pys "requirements") then []
    else
      match e.2 with
      | .dir subnames =>
        subnames.filterMap fun sub =>
          if endsWithReqExt sub then some (pathJoin (pathJoin path e.1) sub) else none
      | .file => if endsWithReqExt e.1 then [pathJoin path e.1] else []
      | .other => []

/-- A directory containing a subdirectory `requirements` (which holds
`base.txt`) and an unrelated sibling file `notes.txt`. -/
def dirWithReqSubdir : DirListing :=
  DirListing.mk
    [(pys "requirements", FsEntry.dir [pys "base.txt"]),
     (pys "notes.txt", FsEntry.file)]

/-- C6.  The claim says a directory entry containing `"requirements"` yields
the `.txt`/`.in` files one level inside that directory.  The code re-lists the
passed directory instead of the entry (`os.listdir(path)` on line 278 instead
of `os.listdir(full_path)`): on a directory whose `requirements` subdirectory
holds `base.txt` and which also holds a sibling `notes.txt`, it yields the
sibling `p/notes.txt` and never `p/requirements/base.txt`, the file the claim
(and the code's own comment) call for. -/
theorem requirementsFinder_dir_branch_lists_parent_not_subdir :
    RequirementsFinder.getFilesFromDir (pys "p") dirWithReqSubdir
      = [pys "p/notes.txt"] ∧
    claimGetFilesFromDir (pys "p") dirWithReqSubdir
      = [pys "p/requirements/base.txt"] := by
  refine ⟨by decide, by decide⟩

/-!
## ReqsBaseFinder._get_parents (finders.py lines 218-224)

```python
@staticmethod
def _get_parents(path):
    prev = ''
    while path != prev:
        prev = path
        yield path
        path = os.path.dirname(path)
```

with `os.path.dirname` the CPython POSIX implementation:

```python
def dirname(p):
    sep = '/'
    i = p.rfind(sep) + 1
    head = p[:i]
    if head and head != sep*len(head):
        head = head.rstrip(sep)
    return head
```
-/

/-- Model of `p.rfind('/') + 1`: one past the position of the last slash, `0` when the
string has none. -/
def lastSlashEnd : PyStr → Nat
  | [] => 0
  | c :: cs =>
    if lastSlashEnd cs > 0 then lastSlashEnd cs + 1
    else if c = '/' then 1 else 0

/-- Model of `head.rstrip('/')`. -/
def rstripSlash (l : PyStr) : PyStr :=
  (l.reverse.dropWhile fun c => c = '/').reverse

/-- Model of `posixpath.dirname`, translated from CPython: keep everything up to and
including the last slash, then strip trailing slashes unless the head is empty
or consists only of slashes. -/
def dirname (p : PyStr) : PyStr :=
  let head := p.take (lastSlashEnd p)
  if head.any fun c => c ≠ '/' then rstripSlash head else head

theorem lastSlashEnd_le_length (p : PyStr) : lastSlashEnd p ≤ p.length := by
  induction p with
  | nil => simp [lastSlashEnd]
  | cons c cs ih =>
    rw [lastSlashEnd]
    split
    · simpa using ih
    · split <;> simp

theorem dropWhile_length_le (p : Char → Bool) (l : PyStr) :
    (l.dropWhile p).length ≤ l.length := by
  induction l with
  | nil => simp
  | cons c t ih =>
    rw [List.dropWhile_cons]
    split
    · exact le_trans ih (by simp)
    · simp

theorem rstripSlash_length_le (l : PyStr) : (rstripSlash l).length ≤ l.length := by
  have h := dropWhile_length_le (fun c => decide (c = '/')) l.reverse
  simpa [rstripSlash] using h

theorem getLast_slash_of_lastSlashEnd_eq_length (p : PyStr) (hne : p ≠ [])
    (h : lastSlashEnd p = p.length) : p.getLast? = some '/' := by
  induction p with
  | nil => exact absurd rfl hne
  | cons c cs ih =>
    rw [lastSlashEnd] at h
    simp only [List.length_cons] at h
    by_cases h1 : lastSlashEnd cs > 0
    · rw [if_pos h1] at h
      have hcs : lastSlashEnd cs = cs.length := by omega
      have hcsne : cs ≠ [] := by
        intro hnil
        rw [hnil] at h1
        simp [lastSlashEnd] at h1
      cases cs with
      | nil => exact absurd rfl hcsne
      | cons d ds =>
        rw [List.getLast?_cons_cons]
        exact ih hcsne hcs
    · rw [if_neg h1] at h
      by_cases h2 : c = '/'
      · rw [if_pos h2] at h
        have : cs = [] := List.length_eq_zero.1 (by omega)
        subst this
        simp [h2]
      · rw [if_neg h2] at h
        omega

theorem rstripSlash_length_lt (l : PyStr) (h : l.getLast? = some '/') :
    (rstripSlash l).length < l.length := by
  have hhead : l.reverse.head? = some '/' := by
    rw [List.head?_reverse]
    exact h
  cases hrev : l.reverse with
  | nil => simp [hrev] at hhead
  | cons c t =>
    rw [hrev] at hhead
    simp only [List.head?_cons, Option.some_inj] at hhead
    have hstrip : rstripSlash l = (t.dropWhile fun c => c = '/').reverse := by
      rw [rstripSlash, hrev, List.dropWhile_cons, if_pos (by simp [hhead])]
    rw [hstrip]
    have hlen : l.length = t.length + 1 := by
      have := congrArg List.length hrev
      simpa using this
    have := dropWhile_length_le (fun c => decide (c = '/')) t
    simp only [List.length_reverse]
    omega

/-- A non-fixpoint `dirname` step strictly shortens the path (the key
termination fact for `_get_parents`). -/
theorem dirname_length_lt (p : PyStr) (h : dirname p ≠ p) :
    (dirname p).length < p.length := by
  by_cases hlt : lastSlashEnd p < p.length
  · have htake : (p.take (lastSlashEnd p)).length = lastSlashEnd p := by
      simp [List.length_take]
      omega
    rw [dirname]
    split
    · calc (rstripSlash (p.take (lastSlashEnd p))).length
          ≤ (p.take (lastSlashEnd p)).length := rstripSlash_length_le _
        _ < p.length := by rw [htake]; exact hlt
    · rw [htake]; exact hlt
  · have heq : lastSlashEnd p = p.length :=
      le_antisymm (lastSlashEnd_le_length p) (not_lt.1 hlt)
    have htake : p.take (lastSlashEnd p) = p := by
      rw [heq]
      simp
    rw [dirname, htake] at h ⊢
    by_cases hany : (p.any fun c => decide (c ≠ '/')) = true
    · rw [if_pos hany] at h ⊢
      have hne : p ≠ [] := by
        intro hnil
        rw [hnil] at hany
        simp at hany
      exact rstripSlash_length_lt p
        (getLast_slash_of_lastSlashEnd_eq_length p hne heq)
    · rw [if_neg hany] at h
      exact absurd rfl h

/-- The `while` loop of `_get_parents`: `prev` holds the previous value of
`path`; while they differ, the current `path` is yielded and `path` steps to
its `dirname`.  Termination: by `dirname_length_lt`, a step either reaches a
fixpoint (the next comparison stops the loop) or strictly shortens the path. -/
def ReqsBaseFinder.getParentsLoop (path prev : PyStr) : List PyStr :=
  if path = prev then []
  else path :: ReqsBaseFinder.getParentsLoop (dirname path) path
termination_by 2 * path.length + (if path = prev then 0 else 1)
decreasing_by
  rename_i hne
  by_cases hd : dirname path = path
  · rw [if_pos hd, hd, if_neg hne]
    omega
  · have := dirname_length_lt path hd
    rw [if_neg hd, if_neg hne]
    omega

/-- Model of `ReqsBaseFinder._get_parents(path)`: the sequence of yields, starting from
`prev = ''`. -/
def ReqsBaseFinder.getParents (path : PyStr) : List PyStr :=
  ReqsBaseFinder.getParentsLoop path []

theorem getParentsLoop_spec (path prev : PyStr) (h : path ≠ prev) :
    (ReqsBaseFinder.getParentsLoop path prev).head? = some path ∧
    List.Chain' (fun a b => b = dirname a ∧ a ≠ b)
      (ReqsBaseFinder.getParentsLoop path prev) ∧
    (∃ q, (ReqsBaseFinder.getParentsLoop path prev).getLast? = some q ∧
      dirname q = q) ∧
    (ReqsBaseFinder.getParentsLoop path prev).length ≤ path.length + 1 := by
  induction path, prev using ReqsBaseFinder.getParentsLoop.induct with
  | case1 prev =>
    exact absurd rfl h
  | case2 path prev hne ih =>
    rw [ReqsBaseFinder.getParentsLoop, if_neg hne]
    by_cases hd : dirname path = path
    · rw [ReqsBaseFinder.getParentsLoop, if_pos hd]
      refine ⟨rfl, List.chain'_singleton path, ⟨path, rfl, hd⟩, by simp⟩
    · have hd' : dirname path ≠ path := hd
      obtain ⟨hh, hc, ⟨q, hq, hfix⟩, hlen⟩ := ih hd'
      have hrestne : ReqsBaseFinder.getParentsLoop (dirname path) path ≠ [] := by
        intro hnil
        rw [hnil] at hh
        simp at hh
      refine ⟨rfl, ?_, ?_, ?_⟩
      · rw [List.chain'_cons']
        refine ⟨?_, hc⟩
        intro b hb
        rw [hh] at hb
        simp only [Option.mem_def, Option.some_inj] at hb
        subst hb
        exact ⟨rfl, fun heq => hd (heq.symm)⟩
      · refine ⟨q, ?_, hfix⟩
        cases hrest : ReqsBaseFinder.getParentsLoop (dirname path) path with
        | nil => exact absurd hrest hrestne
        | cons r rs =>
          rw [List.getLast?_cons_cons]
          rw [hrest] at hq
          exact hq
      · have hlt := dirname_length_lt path hd
        simp only [List.length_cons]
        omega

/-- C10.  `_get_parents('')` yields nothing, and for every non-empty starting
path (in use, the absolute directory computed by `_get_files`) the walk yields
a finite list that starts with the path itself, steps to `os.path.dirname` of
the previous entry while that changes the path, ends at a `dirname` fixpoint
(the filesystem root or the empty relative path), and has at most
`length + 1` entries — so `_load_names` scans finitely many ancestors. -/
theorem reqsBaseFinder_get_parents_terminates (p : PyStr) (hp : p ≠ []) :
    ReqsBaseFinder.getParents [] = [] ∧
    (ReqsBaseFinder.getParents p).head? = some p ∧
    List.Chain' (fun a b => b = dirname a ∧ a ≠ b) (ReqsBaseFinder.getParents p) ∧
    (∃ q, (ReqsBaseFinder.getParents p).getLast? = some q ∧ dirname q = q) ∧
    (ReqsBaseFinder.getParents p).length ≤ p.length + 1 := by
  obtain ⟨h1, h2, h3, h4⟩ := getParentsLoop_spec p [] hp
  refine ⟨?_, h1, h2, h3, h4⟩
  rw [ReqsBaseFinder.getParents, ReqsBaseFinder.getParentsLoop]
  simp

/-- Witness for C10 at the concrete starting path `/a/b`. -/
theorem reqsBaseFinder_get_parents_terminates_witness :
    pys "/a/b" ≠ [] ∧
    (ReqsBaseFinder.getParents [] = [] ∧
     (ReqsBaseFinder.getParents (pys "/a/b")).head? = some (pys "/a/b") ∧
     List.Chain' (fun a b => b = dirname a ∧ a ≠ b)
       (ReqsBaseFinder.getParents (pys "/a/b")) ∧
     (∃ q, (ReqsBaseFinder.getParents (pys "/a/b")).getLast? = some q ∧
       dirname q = q) ∧
     (ReqsBaseFinder.getParents (pys "/a/b")).length ≤ (pys "/a/b").length + 1) :=
  ⟨by decide, reqsBaseFinder_get_parents_terminates (pys "/a/b") (by decide)⟩
